import Mathlib

/-!
Verification development for the QA chatbot application (src/app.py).

The application is a single-file script: an in-memory session store
(st.session_state.messages, a Python list of message dicts), flat-file JSON
chat-log persistence (save_chat_log / load_chat_log, directory "chat_logs"),
and a synchronous LLM gateway wrapper (get_gemini_response).

Shallow embedding conventions:
  - Python JSON-representable values are modelled by the inductive type Json
    (the application only ever stores strings, integers, booleans, null,
    lists and string-keyed dicts in these positions).  json.dump writes a
    JSON value to a file and json.load reads it back; since the values in
    play are JSON trees, dump-then-load is the identity on them, so a file's
    content is modelled as either a well-formed Json tree or an opaque
    malformed blob (which json.load rejects with an exception).
  - The filesystem is a pair of a directory list and an association list
    from path to file content.  Writing to an existing path replaces the
    content in place (Python open(..., 'w') truncates and rewrites).
  - Python exceptions are modelled with Option / Except: a `none` result of
    a handler marks an uncaught fault, an `Except.error` an exception that
    a try/except can catch.  A Lean function that is total never raises.
  - datetime.now() is passed in explicitly as a Timestamp argument;
    strftime("%Y%m%d_%H%M%S") is modelled by fmtTs below.
  - Streamlit UI widgets are out of scope per the specification; handlers
    are modelled as state transformers returning the new session state,
    the new filesystem, and the user-visible warnings/errors they emit.
    st.rerun() is a control transfer back to the framework, not a failure.
-/

/-- Python JSON-representable values (the subset the application stores):
strings, integers, booleans, null, lists, and string-keyed dicts. -/
inductive Json where
  | str : String → Json
  | num : Int → Json
  | bool : Bool → Json
  | null : Json
  | arr : List Json → Json
  | obj : List (String × Json) → Json

/-- Python truthiness (bool(v)) for the modelled JSON values: empty list,
empty dict, empty string, zero, False and None are falsy. -/
def pyTruthy : Json → Bool
  | .str s => s ≠ ""
  | .num n => n ≠ 0
  | .bool b => b
  | .null => false
  | .arr l => !l.isEmpty
  | .obj l => !l.isEmpty

/-- Python dict subscript d[k] for a Json value: returns the value at the
first matching key of an object, and fails (KeyError / TypeError, i.e. an
exception) otherwise. -/
def jsonGet : Json → String → Option Json
  | .obj kvs, k => kvs.lookup k
  | _, _ => none

/-- Python list.append on a Json value: defined on lists, an AttributeError
(modelled as none) on anything else. -/
def pyListAppend : Json → Json → Option Json
  | .arr l, x => some (.arr (l ++ [x]))
  | _, _ => none

/-- Content of a file on disk: either well-formed JSON (what json.dump
produced) or a malformed blob that json.load rejects. -/
inductive FileContent where
  | json : Json → FileContent
  | malformed : String → FileContent

/-- The filesystem visible to the script: existing directories and an
association list from path to content. -/
structure FS where
  dirs : List String
  files : List (String × FileContent)

/-- Replace the content at a path, or append a new entry when the path is
absent (open(path, 'w') semantics). -/
def setFile : List (String × FileContent) → String → FileContent → List (String × FileContent)
  | [], p, c => [(p, c)]
  | (q, d) :: rest, p, c =>
    if q = p then (p, c) :: rest else (q, d) :: setFile rest p c

/-- open(path, 'r') followed by a full read: some content when the path
exists, none (FileNotFoundError) otherwise. -/
def FS.readFile (fs : FS) (p : String) : Option FileContent :=
  fs.files.lookup p

/-- open(path, 'w') followed by a full write. -/
def FS.writeFile (fs : FS) (p : String) (c : FileContent) : FS :=
  { fs with files := setFile fs.files p c }

/-- os.path.exists for the log directory (the application only queries
directory existence here; it never creates a plain file named chat_logs). -/
def FS.dirExists (fs : FS) (d : String) : Bool :=
  fs.dirs.contains d

/-- os.makedirs. -/
def FS.makedirs (fs : FS) (d : String) : FS :=
  { fs with dirs := fs.dirs ++ [d] }

/-- os.listdir: names of the direct children files of a directory (the
application never creates subdirectories inside chat_logs, so files are the
only children).  The OS returns these in unspecified order; sorted(...)
downstream makes the result deterministic. -/
def FS.listdir (fs : FS) (d : String) : List String :=
  fs.files.filterMap fun e =>
    if (d ++ "/").data.isPrefixOf e.1.data ∧ ¬(e.1.data.drop (d ++ "/").data.length).contains '/'
    then some ⟨e.1.data.drop (d ++ "/").data.length⟩
    else none

/-- CPython string comparison (str.__lt__): lexicographic by code point,
with a strict prefix comparing smaller. -/
def lexLtChars : List Char → List Char → Bool
  | _, [] => false
  | [], _ :: _ => true
  | a :: as, b :: bs => if a < b then true else if b < a then false else lexLtChars as bs

/-- Python a < b on str values. -/
def pyStrLt (a b : String) : Bool :=
  lexLtChars a.data b.data

/-- The comparison sorted(..., reverse=True) effectively sorts by: an
element may precede another exactly when it is not smaller (descending,
stable).  Stated as the Prop relation insertion sort takes. -/
def pyGe (a b : String) : Prop :=
  pyStrLt a b = false

instance (a b : String) : Decidable (pyGe a b) := by
  unfold pyGe; infer_instance

/-- A wall-clock timestamp as datetime.now() provides it, at second
resolution (the strftime format string uses no sub-second field). -/
structure Timestamp where
  year : Nat
  month : Nat
  day : Nat
  hour : Nat
  minute : Nat
  second : Nat
deriving DecidableEq, Repr

/-- The component ranges datetime guarantees (year is four digits for any
realistic clock value; month/day are 1-based; hour/minute/second bounded). -/
def validTs (t : Timestamp) : Prop :=
  1000 ≤ t.year ∧ t.year < 10000 ∧
  1 ≤ t.month ∧ t.month ≤ 12 ∧
  1 ≤ t.day ∧ t.day ≤ 31 ∧
  t.hour < 24 ∧ t.minute < 60 ∧ t.second < 60

instance (t : Timestamp) : Decidable (validTs t) := by
  unfold validTs; infer_instance

/-- Chronological (strict) order on timestamps: lexicographic on
(year, month, day, hour, minute, second). -/
def tsLt (t u : Timestamp) : Prop :=
  t.year < u.year ∨ (t.year = u.year ∧
  (t.month < u.month ∨ (t.month = u.month ∧
  (t.day < u.day ∨ (t.day = u.day ∧
  (t.hour < u.hour ∨ (t.hour = u.hour ∧
  (t.minute < u.minute ∨ (t.minute = u.minute ∧
  t.second < u.second)))))))))

instance (t u : Timestamp) : Decidable (tsLt t u) := by
  unfold tsLt; infer_instance

/-- Two-digit zero-padded decimal rendering, as strftime produces for
%m %d %H %M %S (their values are always below 100). -/
def pad2 (n : Nat) : List Char :=
  [Nat.digitChar (n / 10), Nat.digitChar (n % 10)]

/-- Four-digit decimal rendering, as strftime %Y produces for four-digit
years (all values datetime.now() can return for centuries to come). -/
def pad4 (n : Nat) : List Char :=
  pad2 (n / 100) ++ pad2 (n % 100)

/-- strftime("%Y%m%d_%H%M%S"). -/
def fmtTs (t : Timestamp) : String :=
  ⟨pad4 t.year ++ (pad2 t.month ++ (pad2 t.day ++
    ('_' :: (pad2 t.hour ++ (pad2 t.minute ++ pad2 t.second)))))⟩

/-- The file name save_chat_log builds inside the log directory. -/
def logFilename (t : Timestamp) : String :=
  "chat_" ++ fmtTs t ++ ".json"

/-- The full relative path save_chat_log writes to:
f"chat_logs/chat_\x7btimestamp\x7d.json". -/
def logPath (t : Timestamp) : String :=
  "chat_logs/chat_" ++ fmtTs t ++ ".json"

/-- The object save_chat_log serializes: a dict with the timestamp string
and the messages value. -/
def chatData (t : Timestamp) (messages : Json) : Json :=
  .obj [("timestamp", .str (fmtTs t)), ("messages", messages)]

/-- save_chat_log (src/app.py lines 19-33): create the chat_logs directory
when absent, build the second-resolution timestamped filename, and dump
the chat data there.  Total: the model has no failing save path (the spec
notes the source leaves save failures unhandled; the filesystem model has
no I/O faults). -/
def save_chat_log (messages : Json) (now : Timestamp) (fs : FS) : FS :=
  let fs1 := if fs.dirExists "chat_logs" then fs else fs.makedirs "chat_logs"
  fs1.writeFile (logPath now) (.json (chatData now messages))

/-- The session state the handlers touch: st.session_state.messages.  It is
a Python list of message dicts in every normal run, but load_chat_log can
replace it by an arbitrary JSON value, hence the Json type. -/
structure SessionState where
  messages : Json

/-- load_chat_log (src/app.py lines 36-46): join the directory and the
filename, read and parse, take the "messages" key and replace the session
messages; any exception on the way (missing file, malformed JSON, missing
key or non-dict root) is caught and surfaced as an st.error message, and
the session is not touched.  Returns the new session state and the error
message, if one was displayed. -/
def load_chat_log (filename : String) (fs : FS) (sess : SessionState) :
    SessionState × Option String :=
  match fs.readFile ("chat_logs/" ++ filename) with
  | none => (sess, some "Error loading chat: file not found")
  | some (.malformed _) => (sess, some "Error loading chat: invalid JSON")
  | some (.json chat_data) =>
    match jsonGet chat_data "messages" with
    | none => (sess, some "Error loading chat: messages key missing")
    | some v => ({ messages := v }, none)

/-- The failure condition of load_chat_log: the file is absent, its content
is not JSON, or the parsed value has no "messages" entry. -/
def loadFails (filename : String) (fs : FS) : Prop :=
  match fs.readFile ("chat_logs/" ++ filename) with
  | none => True
  | some (.malformed _) => True
  | some (.json chat_data) => jsonGet chat_data "messages" = none

/-- get_gemini_response (src/app.py lines 49-56).  The external genai call
chain (model construction, generate_content, the .text accessor) is the
oracle argument: Except.ok is a successful response text, Except.error e is
any raised exception with str(e) = e.  The try/except converts every
exception into the string "Error: " followed by str(e); the function is
total, so it never raises to its caller. -/
def get_gemini_response (api : String → String → Except String String)
    (prompt : String) (model_name : String) : String :=
  match api model_name prompt with
  | .ok text => text
  | .error e => "Error: " ++ e

/-- The sidebar listing (src/app.py line 128):
sorted(os.listdir("chat_logs"), reverse=True). -/
def log_files (fs : FS) : List String :=
  List.insertionSort pyGe (fs.listdir "chat_logs")

/-- The filenames the View Recent Chats expander offers as load buttons
(src/app.py line 134): log_files[:5]. -/
def recent_log_files (fs : FS) : List String :=
  (log_files fs).take 5

/-- A message dict as the chat handler builds it. -/
def mkMsg (role content : String) : Json :=
  .obj [("role", .str role), ("content", .str content)]

/-- A well-formed Message record of the data model: a dict with a role in
the user/assistant enum and a string content. -/
def validMessage (v : Json) : Prop :=
  ∃ role content, v = mkMsg role content ∧ (role = "user" ∨ role = "assistant")

/-- The session-messages value the data model allows: a list of well-formed
Message records. -/
def validMessages (v : Json) : Prop :=
  ∃ l, v = Json.arr l ∧ ∀ m ∈ l, validMessage m

/-- The API key the sidebar leaves in scope (src/app.py lines 70-84): the
environment variable when set and non-empty (Python truthiness on the
os.getenv result), otherwise whatever the text box holds (empty when the
user typed nothing, in which case the sidebar shows a warning). -/
def resolve_api_key (env : Option String) (entered : String) : String :=
  match env with
  | some k => if k = "" then entered else k
  | none => entered

/-- The New Chat button handler (src/app.py lines 107-112): save the
current messages first when they are truthy (a non-empty list), then reset
the session to the empty list.  Returns the new filesystem and session. -/
def new_chat_handler (now : Timestamp) (fs : FS) (sess : SessionState) :
    FS × SessionState :=
  (if pyTruthy sess.messages then save_chat_log sess.messages now fs else fs,
   { messages := .arr [] })

/-- Result of one chat-input turn. -/
structure ChatTurn where
  sess : SessionState
  warning : Option String
  gatewayCalled : Bool
  displayed : Option String

/-- The chat input handler (src/app.py lines 148-165), run when the user
submits a (truthy) prompt: with a falsy api_key only a warning is shown;
otherwise the user message is appended, the gateway is called once, and the
assistant message is appended.  A none result is an uncaught fault
(list.append on a non-list session value). -/
def chat_input_handler (api : String → String → Except String String)
    (api_key : String) (model_name : String) (prompt : String)
    (sess : SessionState) : Option ChatTurn :=
  if api_key = "" then
    some ⟨sess, some "Please enter your Gemini API key in the sidebar!", false, none⟩
  else
    match pyListAppend sess.messages (mkMsg "user" prompt) with
    | none => none
    | some m1 =>
      let response := get_gemini_response api prompt model_name
      match pyListAppend m1 (mkMsg "assistant" response) with
      | none => none
      | some m2 => some ⟨{ messages := m2 }, none, true, some response⟩

/-- One append to the Session Store (st.session_state.messages.append),
threading the possibility of a fault. -/
def sessionAppend (s : Option SessionState) (v : Json) : Option SessionState :=
  s.bind fun st => (pyListAppend st.messages v).map fun m => { messages := m }

/-- The session reached from the empty session by a sequence of appends. -/
def sessionAfterAppends (vs : List Json) : Option SessionState :=
  vs.foldl sessionAppend (some { messages := .arr [] })

/-! Helper lemmas about the filesystem model. -/

theorem setFile_lookup_self (files : List (String × FileContent)) (p : String) (c : FileContent) :
    (setFile files p c).lookup p = some c := by
  induction files with
  | nil => simp [setFile, List.lookup]
  | cons e rest ih =>
    obtain ⟨q, d⟩ := e
    by_cases h : q = p
    · subst h; simp [setFile, List.lookup]
    · simp only [setFile, if_neg h, List.lookup, beq_eq_false_iff_ne.mpr (Ne.symm h)]
      exact ih

theorem setFile_of_not_mem (files : List (String × FileContent)) (p : String) (c : FileContent)
    (h : p ∉ files.map Prod.fst) : setFile files p c = files ++ [(p, c)] := by
  induction files with
  | nil => rfl
  | cons e rest ih =>
    obtain ⟨q, d⟩ := e
    simp only [List.map_cons, List.mem_cons] at h
    push_neg at h
    simp only [setFile, if_neg (Ne.symm h.1), List.cons_append, List.cons.injEq, true_and]
    exact ih h.2

theorem setFile_map_fst_of_mem (files : List (String × FileContent)) (p : String) (c : FileContent)
    (h : p ∈ files.map Prod.fst) : (setFile files p c).map Prod.fst = files.map Prod.fst := by
  induction files with
  | nil => simp at h
  | cons e rest ih =>
    obtain ⟨q, d⟩ := e
    by_cases hq : q = p
    · subst hq; simp [setFile]
    · simp only [List.map_cons, List.mem_cons] at h
      rcases h with h | h
      · exact absurd h.symm hq
      · simp only [setFile, if_neg hq, List.map_cons, List.cons.injEq, true_and]
        exact ih h

theorem save_files_eq (messages : Json) (now : Timestamp) (fs : FS) :
    (save_chat_log messages now fs).files =
      setFile fs.files (logPath now) (.json (chatData now messages)) := by
  unfold save_chat_log
  by_cases h : fs.dirExists "chat_logs" <;> simp [h, FS.writeFile, FS.makedirs]

theorem readFile_save (messages : Json) (now : Timestamp) (fs : FS) :
    (save_chat_log messages now fs).readFile (logPath now) =
      some (.json (chatData now messages)) := by
  unfold FS.readFile
  rw [save_files_eq]
  exact setFile_lookup_self _ _ _

theorem join_logFilename (t : Timestamp) : "chat_logs/" ++ logFilename t = logPath t := by
  unfold logFilename logPath
  rw [← String.append_assoc, ← String.append_assoc]
  rfl

/-- Claim C1: saving a non-empty message sequence and loading the resulting
file back (nothing else touching the filesystem in between) restores
exactly the same ordered message sequence, and the load reports no
error. -/
theorem save_load_round_trip (msgs : List Json) (now : Timestamp) (fs : FS)
    (sess : SessionState) (_hne : msgs ≠ []) :
    load_chat_log (logFilename now) (save_chat_log (.arr msgs) now fs) sess =
      ({ messages := .arr msgs }, none) := by
  unfold load_chat_log
  rw [join_logFilename, readFile_save]
  rfl

/-- Concrete instantiation of save_load_round_trip. -/
theorem save_load_round_trip_witness :
    load_chat_log (logFilename ⟨2025, 10, 12, 9, 30, 0⟩)
        (save_chat_log (.arr [mkMsg "user" "hi"]) ⟨2025, 10, 12, 9, 30, 0⟩ ⟨[], []⟩)
        { messages := .arr [] } =
      ({ messages := .arr [mkMsg "user" "hi"] }, none) :=
  save_load_round_trip [mkMsg "user" "hi"] ⟨2025, 10, 12, 9, 30, 0⟩ ⟨[], []⟩
    { messages := .arr [] } (by simp)

/-- Claim C2: the gateway wrapper is a total function (the model of the
try/except around every failing operation), returning the response text on
success and a string starting with the prefix Error: on any failure. -/
theorem gemini_response_total (api : String → String → Except String String)
    (prompt model_name : String) :
    (∀ t, api model_name prompt = .ok t →
        get_gemini_response api prompt model_name = t) ∧
    (∀ e, api model_name prompt = .error e →
        get_gemini_response api prompt model_name = "Error: " ++ e ∧
        "Error:".data.isPrefixOf (get_gemini_response api prompt model_name).data = true) := by
  constructor
  · intro t h
    unfold get_gemini_response
    rw [h]
  · intro e h
    unfold get_gemini_response
    rw [h]
    refine ⟨rfl, ?_⟩
    rw [String.data_append]
    rfl

/-- Concrete instantiation of gemini_response_total on a failing oracle. -/
theorem gemini_response_total_witness :
    get_gemini_response (fun _ _ => .error "quota exceeded") "hi" "gemini-2.5-flash" =
        "Error: " ++ "quota exceeded" ∧
    "Error:".data.isPrefixOf
        (get_gemini_response (fun _ _ => .error "quota exceeded") "hi" "gemini-2.5-flash").data
      = true :=
  (gemini_response_total (fun _ _ => .error "quota exceeded") "hi" "gemini-2.5-flash").2
    "quota exceeded" rfl

/-- Claim C3: whenever load_chat_log hits any I/O or parse failure (missing
file, malformed JSON, missing messages key), it reports an error message
and leaves the session untouched; being a total function, no fault escapes
to terminate the process. -/
theorem load_failure_leaves_session (filename : String) (fs : FS) (sess : SessionState)
    (h : loadFails filename fs) :
    (load_chat_log filename fs sess).1 = sess ∧
    ((load_chat_log filename fs sess).2).isSome = true := by
  unfold loadFails at h
  unfold load_chat_log
  cases hr : fs.readFile ("chat_logs/" ++ filename) with
  | none => exact ⟨rfl, rfl⟩
  | some c =>
    cases c with
    | malformed b => exact ⟨rfl, rfl⟩
    | json j =>
      rw [hr] at h
      simp only at h
      simp [h]

/-- Concrete instantiation of load_failure_leaves_session on a malformed
file. -/
theorem load_failure_leaves_session_witness :
    (load_chat_log "bad.json"
        ⟨["chat_logs"], [("chat_logs/bad.json", .malformed "oops")]⟩
        { messages := .arr [mkMsg "user" "hi"] }).1 =
      { messages := .arr [mkMsg "user" "hi"] } ∧
    ((load_chat_log "bad.json"
        ⟨["chat_logs"], [("chat_logs/bad.json", .malformed "oops")]⟩
        { messages := .arr [mkMsg "user" "hi"] }).2).isSome = true :=
  load_failure_leaves_session "bad.json"
    ⟨["chat_logs"], [("chat_logs/bad.json", .malformed "oops")]⟩
    { messages := .arr [mkMsg "user" "hi"] } (by trivial)

/-- Claim C10: load_chat_log validates nothing: any well-formed JSON file
whose root has a messages key replaces the session messages wholesale with
that key's value, whatever it is; in particular a load can leave a session
value that is no list of role/content records, so load does not preserve
the Message data-model invariant. -/
theorem load_no_schema_validation :
    (∀ (filename : String) (fs : FS) (sess : SessionState) (j v : Json),
        fs.readFile ("chat_logs/" ++ filename) = some (.json j) →
        jsonGet j "messages" = some v →
        load_chat_log filename fs sess = ({ messages := v }, none)) ∧
    (∃ (fs : FS) (sess : SessionState),
        (load_chat_log "bad.json" fs sess).2 = none ∧
        ¬ validMessages (load_chat_log "bad.json" fs sess).1.messages) := by
  constructor
  · intro filename fs sess j v hj hv
    unfold load_chat_log
    rw [hj]
    simp only [hv]
  · refine ⟨⟨["chat_logs"], [("chat_logs/bad.json", .json (.obj [("messages", .num 7)]))]⟩,
      { messages := .arr [] }, rfl, ?_⟩
    rintro ⟨l, hl, -⟩
    exact absurd hl (by simp [load_chat_log, FS.readFile, List.lookup, jsonGet])

/-- Concrete instantiation of load_no_schema_validation: a messages value
that is a bare number is installed verbatim. -/
theorem load_no_schema_validation_witness :
    load_chat_log "bad.json"
        ⟨["chat_logs"], [("chat_logs/bad.json", .json (.obj [("messages", .num 7)]))]⟩
        { messages := .arr [] } =
      ({ messages := .num 7 }, none) :=
  load_no_schema_validation.1 "bad.json"
    ⟨["chat_logs"], [("chat_logs/bad.json", .json (.obj [("messages", .num 7)]))]⟩
    { messages := .arr [] } (.obj [("messages", .num 7)]) (.num 7) rfl rfl

theorem sessionAfterAppends_go (vs : List Json) (acc : List Json) :
    vs.foldl sessionAppend (some { messages := .arr acc }) =
      some { messages := .arr (acc ++ vs) } := by
  induction vs generalizing acc with
  | nil => simp
  | cons v rest ih =>
    rw [List.foldl_cons,
      show sessionAppend (some { messages := Json.arr acc }) v =
        some { messages := Json.arr (acc ++ [v]) } from rfl,
      ih]
    simp

/-- Claim C6: the Session Store is append-only and lossless: starting from
the empty session, any sequence of appends (user and assistant messages
alike) leaves exactly that sequence, in insertion order, as the session
messages; no append faults and none is dropped. -/
theorem session_store_preserves_appends (vs : List Json) :
    sessionAfterAppends vs = some { messages := .arr vs } := by
  unfold sessionAfterAppends
  simpa using sessionAfterAppends_go vs []

/-- Claim C8: with no credential configured (environment variable absent or
empty, nothing entered interactively) the resolved api_key is falsy, so a
submitted prompt only produces the sidebar warning: the handler returns
normally (no crash), appends nothing to the session, and never calls the
gateway. -/
theorem missing_key_disables_interaction (env : Option String) (entered : String)
    (api : String → String → Except String String) (model_name prompt : String)
    (sess : SessionState) (henv : env = none ∨ env = some "") (hent : entered = "") :
    resolve_api_key env entered = "" ∧
    chat_input_handler api (resolve_api_key env entered) model_name prompt sess =
      some ⟨sess, some "Please enter your Gemini API key in the sidebar!", false, none⟩ := by
  have hk : resolve_api_key env entered = "" := by
    rcases henv with h | h <;> subst h <;> simp [resolve_api_key, hent]
  refine ⟨hk, ?_⟩
  rw [hk]
  rfl

/-- Concrete instantiation of missing_key_disables_interaction. -/
theorem missing_key_disables_interaction_witness :
    resolve_api_key none "" = "" ∧
    chat_input_handler (fun _ _ => .ok "fine") (resolve_api_key none "") "gemini-2.5-flash"
        "What is 2+2?" { messages := .arr [] } =
      some ⟨{ messages := .arr [] },
        some "Please enter your Gemini API key in the sidebar!", false, none⟩ :=
  missing_key_disables_interaction none "" (fun _ _ => .ok "fine") "gemini-2.5-flash"
    "What is 2+2?" { messages := .arr [] } (Or.inl rfl) rfl

theorem setFile_mem_fst (files : List (String × FileContent)) (p : String) (c : FileContent) :
    p ∈ (setFile files p c).map Prod.fst := by
  induction files with
  | nil => simp [setFile]
  | cons e rest ih =>
    obtain ⟨q, d⟩ := e
    by_cases h : q = p
    · subst h; simp [setFile]
    · simp only [setFile, if_neg h, List.map_cons, List.mem_cons]
      exact Or.inr ih

/-- Claim C4: the New Chat handler always leaves an empty session; with an
empty session it touches no file, and with a non-empty session (and a save
timestamp not already taken, i.e. no second save within the same second)
it appends exactly one new log file holding exactly the session's
messages. -/
theorem new_chat_behaviour (now : Timestamp) (fs : FS) (sess : SessionState) :
    (sess.messages = .arr [] →
      new_chat_handler now fs sess = (fs, { messages := .arr [] })) ∧
    (∀ l, sess.messages = .arr l → l ≠ [] → logPath now ∉ fs.files.map Prod.fst →
      (new_chat_handler now fs sess).1.files =
        fs.files ++ [(logPath now, .json (chatData now (.arr l)))] ∧
      (new_chat_handler now fs sess).2 = { messages := .arr [] }) := by
  constructor
  · intro h
    unfold new_chat_handler
    rw [h]
    rfl
  · intro l hl hne hfresh
    have ht : pyTruthy sess.messages = true := by
      rw [hl]; simp [pyTruthy, hne]
    unfold new_chat_handler
    rw [ht]
    refine ⟨?_, rfl⟩
    simp only [if_true]
    rw [save_files_eq, hl, setFile_of_not_mem _ _ _ hfresh]

/-- Concrete instantiation of new_chat_behaviour: a session holding one
user message is saved to exactly one new file and then emptied. -/
theorem new_chat_behaviour_witness :
    (new_chat_handler ⟨2025, 10, 12, 9, 30, 0⟩ ⟨[], []⟩
        { messages := .arr [mkMsg "user" "hi"] }).1.files =
      [] ++ [(logPath ⟨2025, 10, 12, 9, 30, 0⟩,
        .json (chatData ⟨2025, 10, 12, 9, 30, 0⟩ (.arr [mkMsg "user" "hi"])))] ∧
    (new_chat_handler ⟨2025, 10, 12, 9, 30, 0⟩ ⟨[], []⟩
        { messages := .arr [mkMsg "user" "hi"] }).2 = { messages := .arr [] } :=
  (new_chat_behaviour ⟨2025, 10, 12, 9, 30, 0⟩ ⟨[], []⟩
      { messages := .arr [mkMsg "user" "hi"] }).2
    [mkMsg "user" "hi"] rfl (by simp) (by simp)

/-- Claim C7: save_chat_log writes to chat_logs/chat_YYYYMMDD_HHMMSS.json
built from the second-resolution save time, first creating the log
directory when absent; a second save within the same second hits the same
path and simply overwrites the first file's contents (last write wins, no
new file, and the function is total so no error is raised). -/
theorem save_chat_log_behaviour (messages : Json) (now : Timestamp) (fs : FS) :
    ((save_chat_log messages now fs).readFile (logPath now) =
      some (.json (chatData now messages))) ∧
    (logPath now = "chat_logs/chat_" ++ fmtTs now ++ ".json") ∧
    ((save_chat_log messages now fs).dirs =
      if fs.dirExists "chat_logs" then fs.dirs else fs.dirs ++ ["chat_logs"]) ∧
    (∀ messages2,
      (save_chat_log messages2 now (save_chat_log messages now fs)).readFile (logPath now) =
        some (.json (chatData now messages2)) ∧
      (save_chat_log messages2 now (save_chat_log messages now fs)).files.map Prod.fst =
        (save_chat_log messages now fs).files.map Prod.fst) := by
  refine ⟨readFile_save messages now fs, rfl, ?_, ?_⟩
  · unfold save_chat_log FS.writeFile FS.makedirs
    by_cases h : fs.dirExists "chat_logs" <;> simp [h]
  · intro messages2
    refine ⟨readFile_save messages2 now _, ?_⟩
    rw [save_files_eq messages2 now]
    apply setFile_map_fst_of_mem
    rw [save_files_eq messages now]
    exact setFile_mem_fst _ _ _

/-- Concrete instantiation of save_chat_log_behaviour: two saves in the
same second leave one file with the second contents. -/
theorem save_chat_log_behaviour_witness :
    (save_chat_log (.arr [mkMsg "user" "two"]) ⟨2025, 10, 12, 9, 30, 0⟩
        (save_chat_log (.arr [mkMsg "user" "one"]) ⟨2025, 10, 12, 9, 30, 0⟩
          ⟨[], []⟩)).readFile (logPath ⟨2025, 10, 12, 9, 30, 0⟩) =
      some (.json (chatData ⟨2025, 10, 12, 9, 30, 0⟩ (.arr [mkMsg "user" "two"]))) ∧
    (save_chat_log (.arr [mkMsg "user" "two"]) ⟨2025, 10, 12, 9, 30, 0⟩
        (save_chat_log (.arr [mkMsg "user" "one"]) ⟨2025, 10, 12, 9, 30, 0⟩
          ⟨[], []⟩)).files.map Prod.fst =
      (save_chat_log (.arr [mkMsg "user" "one"]) ⟨2025, 10, 12, 9, 30, 0⟩
        ⟨[], []⟩).files.map Prod.fst :=
  (save_chat_log_behaviour (.arr [mkMsg "user" "one"]) ⟨2025, 10, 12, 9, 30, 0⟩
    ⟨[], []⟩).2.2.2 (.arr [mkMsg "user" "two"])

/-! Order theory of the CPython string comparison. -/

theorem lexLtChars_irrefl (l : List Char) : lexLtChars l l = false := by
  induction l with
  | nil => rfl
  | cons a as ih => simp [lexLtChars, lt_irrefl, ih]

theorem lexLtChars_asymm : ∀ {l m : List Char},
    lexLtChars l m = true → lexLtChars m l = false
  | [], [], h => by cases h
  | _ :: _, [], h => by cases h
  | [], _ :: _, _ => rfl
  | a :: as, b :: bs, h => by
    by_cases hab : a < b
    · simp [lexLtChars, lt_asymm hab, hab]
    · by_cases hba : b < a
      · simp [lexLtChars, hab, hba] at h
      · simp only [lexLtChars, if_neg hab, if_neg hba] at h
        simp only [lexLtChars, if_neg hba, if_neg hab]
        exact lexLtChars_asymm h

theorem lexLtChars_trans : ∀ {l m n : List Char},
    lexLtChars l m = true → lexLtChars m n = true → lexLtChars l n = true
  | _, _ :: _, [], _, h2 => by cases h2
  | _, [], [], _, h2 => by cases h2
  | [], _, _ :: _, _, _ => rfl
  | _ :: _, [], _, h1, _ => by cases h1
  | a :: as, b :: bs, c :: cs, h1, h2 => by
    by_cases hab : a < b
    · by_cases hbc : b < c
      · simp [lexLtChars, lt_trans hab hbc]
      · by_cases hcb : c < b
        · simp [lexLtChars, hbc, hcb] at h2
        · have : b = c := le_antisymm (not_lt.mp hcb) (not_lt.mp hbc)
          subst this
          simp [lexLtChars, hab]
    · by_cases hba : b < a
      · simp [lexLtChars, hab, hba] at h1
      · have hab2 : a = b := le_antisymm (not_lt.mp hba) (not_lt.mp hab)
        subst hab2
        simp only [lexLtChars, if_neg hab, if_neg hba] at h1
        by_cases hbc : a < c
        · simp [lexLtChars, hbc]
        · by_cases hcb : c < a
          · simp [lexLtChars, hbc, hcb] at h2
          · simp only [lexLtChars, if_neg hbc, if_neg hcb] at h2 ⊢
            exact lexLtChars_trans h1 h2

theorem lexLtChars_connex : ∀ {l m : List Char},
    lexLtChars l m = false → lexLtChars m l = false → l = m
  | [], [], _, _ => rfl
  | [], _ :: _, h1, _ => by cases h1
  | _ :: _, [], _, h2 => by cases h2
  | a :: as, b :: bs, h1, h2 => by
    by_cases hab : a < b
    · simp [lexLtChars, hab] at h1
    · by_cases hba : b < a
      · simp [lexLtChars, hba] at h2
      · have hab2 : a = b := le_antisymm (not_lt.mp hba) (not_lt.mp hab)
        subst hab2
        simp only [lexLtChars, if_neg hab, if_neg hba] at h1 h2
        rw [lexLtChars_connex h1 h2]

instance : IsTotal String pyGe :=
  ⟨fun a b => by
    unfold pyGe pyStrLt
    cases h : lexLtChars a.data b.data with
    | false => exact Or.inl rfl
    | true => exact Or.inr (lexLtChars_asymm h)⟩

instance : IsTrans String pyGe :=
  ⟨fun a b c h1 h2 => by
    unfold pyGe pyStrLt at h1 h2 ⊢
    cases hac : lexLtChars a.data c.data with
    | false => rfl
    | true =>
      cases hcb : lexLtChars c.data b.data with
      | false =>
        have hbc : b.data = c.data := lexLtChars_connex h2 hcb
        rw [hbc] at h1
        rw [h1] at hac
        cases hac
      | true =>
        have : lexLtChars a.data b.data = true := lexLtChars_trans hac hcb
        rw [this] at h1
        cases h1⟩

theorem lexLtChars_append_same : ∀ (p x y : List Char),
    lexLtChars (p ++ x) (p ++ y) = lexLtChars x y
  | [], _, _ => rfl
  | a :: as, x, y => by
    simp only [List.cons_append, lexLtChars, lt_irrefl, if_neg (lt_irrefl a)]
    simp [lexLtChars_append_same as x y]

theorem lexLtChars_cons_same (c : Char) (x y : List Char) :
    lexLtChars (c :: x) (c :: y) = lexLtChars x y := by
  simp [lexLtChars, lt_irrefl]

theorem lexLtChars_append_of_lt : ∀ {u v : List Char} (x y : List Char),
    u.length = v.length → lexLtChars u v = true → lexLtChars (u ++ x) (v ++ y) = true
  | [], [], _, _, _, h => by cases h
  | [], _ :: _, _, _, hl, _ => by cases hl
  | _ :: _, [], _, _, hl, _ => by cases hl
  | a :: as, b :: bs, x, y, hl, h => by
    by_cases hab : a < b
    · simp [lexLtChars, hab]
    · by_cases hba : b < a
      · simp [lexLtChars, hab, hba] at h
      · simp only [lexLtChars, if_neg hab, if_neg hba] at h
        simp only [List.cons_append, lexLtChars, if_neg hab, if_neg hba]
        exact lexLtChars_append_of_lt x y (by simpa using hl) h

theorem digitChar_lt : ∀ a, a < 10 → ∀ b, b < 10 → a < b →
    Nat.digitChar a < Nat.digitChar b := by decide

theorem pad2_lt {a b : Nat} (ha : a < 100) (hb : b < 100) (h : a < b) :
    lexLtChars (pad2 a) (pad2 b) = true := by
  rcases Nat.lt_trichotomy (a / 10) (b / 10) with hd | hd | hd
  · have hc : Nat.digitChar (a / 10) < Nat.digitChar (b / 10) :=
      digitChar_lt _ (by omega) _ (by omega) hd
    simp [pad2, lexLtChars, hc]
  · have hones : a % 10 < b % 10 := by omega
    have hc : Nat.digitChar (a % 10) < Nat.digitChar (b % 10) :=
      digitChar_lt _ (by omega) _ (by omega) hones
    simp [pad2, hd, lexLtChars, lt_irrefl, hc]
  · exact absurd hd (by omega)

theorem pad4_lt {a b : Nat} (ha : a < 10000) (hb : b < 10000) (h : a < b) :
    lexLtChars (pad4 a) (pad4 b) = true := by
  unfold pad4
  rcases Nat.lt_trichotomy (a / 100) (b / 100) with hd | hd | hd
  · exact lexLtChars_append_of_lt _ _ rfl (pad2_lt (by omega) (by omega) hd)
  · rw [hd, lexLtChars_append_same]
    exact pad2_lt (by omega) (by omega) (by omega)
  · exact absurd hd (by omega)

/-- Chronologically later valid timestamps format to lexicographically
larger strings, so filename order reflects creation order. -/
theorem fmtTs_mono {t u : Timestamp} (hvt : validTs t) (hvu : validTs u)
    (h : tsLt t u) : lexLtChars (fmtTs t).data (fmtTs u).data = true := by
  obtain ⟨hy1, hy2, hm1, hm2, hd1, hd2, hh2, hmi2, hs2⟩ := hvt
  obtain ⟨gy1, gy2, gm1, gm2, gd1, gd2, gh2, gmi2, gs2⟩ := hvu
  show lexLtChars
    (pad4 t.year ++ (pad2 t.month ++ (pad2 t.day ++
      ('_' :: (pad2 t.hour ++ (pad2 t.minute ++ pad2 t.second))))))
    (pad4 u.year ++ (pad2 u.month ++ (pad2 u.day ++
      ('_' :: (pad2 u.hour ++ (pad2 u.minute ++ pad2 u.second)))))) = true
  rcases h with h | ⟨hy, h⟩
  · exact lexLtChars_append_of_lt _ _ rfl (pad4_lt (by omega) (by omega) h)
  rw [hy, lexLtChars_append_same]
  rcases h with h | ⟨hmo, h⟩
  · exact lexLtChars_append_of_lt _ _ rfl (pad2_lt (by omega) (by omega) h)
  rw [hmo, lexLtChars_append_same]
  rcases h with h | ⟨hd, h⟩
  · exact lexLtChars_append_of_lt _ _ rfl (pad2_lt (by omega) (by omega) h)
  rw [hd, lexLtChars_append_same, lexLtChars_cons_same]
  rcases h with h | ⟨hh, h⟩
  · exact lexLtChars_append_of_lt _ _ rfl (pad2_lt (by omega) (by omega) h)
  rw [hh, lexLtChars_append_same]
  rcases h with h | ⟨hmi, h⟩
  · exact lexLtChars_append_of_lt _ _ rfl (pad2_lt (by omega) (by omega) h)
  rw [hmi, lexLtChars_append_same]
  exact pad2_lt (by omega) (by omega) h

theorem logFilename_mono {t u : Timestamp} (hvt : validTs t) (hvu : validTs u)
    (h : tsLt t u) : pyStrLt (logFilename t) (logFilename u) = true := by
  unfold pyStrLt
  have hd : ∀ w : Timestamp,
      (logFilename w).data = "chat_".data ++ ((fmtTs w).data ++ ".json".data) := by
    intro w
    unfold logFilename
    rw [String.data_append, String.data_append, List.append_assoc]
  rw [hd t, hd u, lexLtChars_append_same]
  apply lexLtChars_append_of_lt _ _ ?_ (fmtTs_mono hvt hvu h)
  rfl

/-- Claim C5: the sidebar listing is a permutation of the log directory
contents sorted by name in descending order; filenames of chronologically
later valid timestamps are lexicographically larger, so when the directory
holds logs of distinct timestamps the most recently created one comes
first (head of the listing). -/
theorem log_files_sorted_desc (fs : FS) :
    (List.Perm (log_files fs) (fs.listdir "chat_logs") ∧
      (log_files fs).Pairwise pyGe) ∧
    (∀ t u, validTs t → validTs u → tsLt t u →
      pyStrLt (logFilename t) (logFilename u) = true) ∧
    (∀ (ts : List Timestamp) (t0 : Timestamp), (∀ t ∈ ts, validTs t) → t0 ∈ ts →
      (∀ u ∈ ts, u = t0 ∨ tsLt u t0) →
      fs.listdir "chat_logs" = ts.map logFilename →
      (log_files fs).head? = some (logFilename t0)) := by
  have hperm : List.Perm (log_files fs) (fs.listdir "chat_logs") :=
    List.perm_insertionSort pyGe _
  have hsorted : (log_files fs).Pairwise pyGe :=
    List.sorted_insertionSort pyGe _
  refine ⟨⟨hperm, hsorted⟩, fun t u hvt hvu h => logFilename_mono hvt hvu h, ?_⟩
  intro ts t0 hval ht0 hmax hdir
  rw [hdir] at hperm
  have hmem : logFilename t0 ∈ log_files fs :=
    hperm.mem_iff.mpr (List.mem_map_of_mem _ ht0)
  cases hL : log_files fs with
  | nil => rw [hL] at hmem; cases hmem
  | cons hd0 rest =>
    rw [hL] at hmem hsorted hperm
    have hh : hd0 ∈ ts.map logFilename :=
      hperm.mem_iff.mp (List.mem_cons_self hd0 rest)
    obtain ⟨u, hu, hue⟩ := List.mem_map.mp hh
    rcases hmax u hu with rfl | hlt
    · rw [hue]
      rfl
    · exfalso
      have hlt2 : pyStrLt hd0 (logFilename t0) = true := by
        rw [← hue]
        exact logFilename_mono (hval u hu) (hval t0 ht0) hlt
      rcases List.mem_cons.mp hmem with he | hr
      · rw [he] at hlt2
        have hirr : pyStrLt hd0 hd0 = false := lexLtChars_irrefl _
        rw [hlt2] at hirr
        cases hirr
      · have hge : pyStrLt hd0 (logFilename t0) = false :=
          (List.pairwise_cons.mp hsorted).1 _ hr
        rw [hlt2] at hge
        cases hge

/-- Concrete instantiation of log_files_sorted_desc: with logs for two
consecutive seconds on disk, the later one heads the listing. -/
theorem log_files_sorted_desc_witness :
    (log_files ⟨["chat_logs"],
        [(logPath ⟨2025, 10, 12, 9, 30, 0⟩, .json .null),
         (logPath ⟨2025, 10, 12, 9, 30, 1⟩, .json .null)]⟩).head? =
      some (logFilename ⟨2025, 10, 12, 9, 30, 1⟩) :=
  (log_files_sorted_desc ⟨["chat_logs"],
      [(logPath ⟨2025, 10, 12, 9, 30, 0⟩, .json .null),
       (logPath ⟨2025, 10, 12, 9, 30, 1⟩, .json .null)]⟩).2.2
    [⟨2025, 10, 12, 9, 30, 0⟩, ⟨2025, 10, 12, 9, 30, 1⟩] ⟨2025, 10, 12, 9, 30, 1⟩
    (by decide) (by decide) (by decide) (by rfl)

/-- Claim C9: the expander offers exactly the first five names of the
descending listing: never more than five, and (the directory listing being
duplicate-free) no name at position five or beyond of the sorted listing is
among the offered ones, however many logs exist. -/
theorem recent_logs_cap (fs : FS) :
    recent_log_files fs = (log_files fs).take 5 ∧
    (recent_log_files fs).length ≤ 5 ∧
    ((fs.listdir "chat_logs").Nodup →
      ∀ i (h5 : 5 ≤ i) (hi : i < (log_files fs).length),
        (log_files fs).get ⟨i, hi⟩ ∉ recent_log_files fs) := by
  refine ⟨rfl, (log_files fs).length_take_le 5, ?_⟩
  intro hnd i h5 hi hmem
  obtain ⟨j, rfl⟩ : ∃ j, i = 5 + j := ⟨i - 5, by omega⟩
  have hnodup : (log_files fs).Nodup :=
    (List.perm_insertionSort pyGe _).nodup_iff.mpr hnd
  have hdisj := List.disjoint_take_drop hnodup (le_refl 5)
  have hlen : j < ((log_files fs).drop 5).length := by
    simp only [List.length_drop]
    omega
  have h2 : ((log_files fs).drop 5).get ⟨j, hlen⟩ = (log_files fs).get ⟨5 + j, hi⟩ := by
    simp only [List.get_eq_getElem]
    exact List.getElem_drop ..
  exact hdisj hmem (h2 ▸ List.get_mem _ _ hlen)

/-- Concrete instantiation of recent_logs_cap: with six logs on disk, the
oldest (position five of the descending listing) is not offered. -/
theorem recent_logs_cap_witness :
    (log_files ⟨["chat_logs"],
        [(logPath ⟨2025, 10, 12, 9, 30, 0⟩, .json .null),
         (logPath ⟨2025, 10, 12, 9, 30, 1⟩, .json .null),
         (logPath ⟨2025, 10, 12, 9, 30, 2⟩, .json .null),
         (logPath ⟨2025, 10, 12, 9, 30, 3⟩, .json .null),
         (logPath ⟨2025, 10, 12, 9, 30, 4⟩, .json .null),
         (logPath ⟨2025, 10, 12, 9, 30, 5⟩, .json .null)]⟩).get ⟨5, by decide⟩ ∉
      recent_log_files ⟨["chat_logs"],
        [(logPath ⟨2025, 10, 12, 9, 30, 0⟩, .json .null),
         (logPath ⟨2025, 10, 12, 9, 30, 1⟩, .json .null),
         (logPath ⟨2025, 10, 12, 9, 30, 2⟩, .json .null),
         (logPath ⟨2025, 10, 12, 9, 30, 3⟩, .json .null),
         (logPath ⟨2025, 10, 12, 9, 30, 4⟩, .json .null),
         (logPath ⟨2025, 10, 12, 9, 30, 5⟩, .json .null)]⟩ :=
  (recent_logs_cap ⟨["chat_logs"],
      [(logPath ⟨2025, 10, 12, 9, 30, 0⟩, .json .null),
       (logPath ⟨2025, 10, 12, 9, 30, 1⟩, .json .null),
       (logPath ⟨2025, 10, 12, 9, 30, 2⟩, .json .null),
       (logPath ⟨2025, 10, 12, 9, 30, 3⟩, .json .null),
       (logPath ⟨2025, 10, 12, 9, 30, 4⟩, .json .null),
       (logPath ⟨2025, 10, 12, 9, 30, 5⟩, .json .null)]⟩).2.2
    (by decide) 5 (by decide) (by decide)
